import Mathlib

/-!
Verification of the sales-analytics normalization and aggregation pipeline.

The definitions below are a shallow embedding of the Python source:
  * `src/utils/helpers.py`   — quarterly metrics, SKU metrics
  * `src/data/sku_manager.py` — SKU / state mapping resolver
  * `src/data/loader.py`      — per-file CSV ingestion and merge
  * `src/data/legend_loader.py` — reference workbook read/write

Pandas dataframes are modelled as lists of records with explicit
column-presence flags where a claim depends on a column being absent.
Float arithmetic is modelled exactly over `ℚ`; the special values NaN and
±inf produced by `pct_change` are modelled by the inductive `Growth`.
-/

namespace SalesSpec

/-- A dataframe cell: `none` is pandas NA, `some s` a string value. -/
abbrev Cell := Option String

/-- Python `str.strip()` / pandas `.str.strip()`: drop leading and trailing
whitespace (structurally recursive so that concrete instances evaluate). -/
def pyStrip (s : String) : String :=
  ⟨((s.data.dropWhile Char.isWhitespace).reverse.dropWhile Char.isWhitespace).reverse⟩

/-- Python `dict.get(k)` over the association list representing the dict
(keys are unique in an actual dict, so which match wins is immaterial). -/
def dictGet {β : Type} (l : List (String × β)) (k : String) : Option β :=
  match l with
  | [] => none
  | p :: rest => if p.1 = k then some p.2 else dictGet rest k

/-- Code-point lexicographic strict comparison of character lists: how
Python compares strings. -/
def charsLTb : List Char → List Char → Bool
  | [], [] => false
  | [], _ :: _ => true
  | _ :: _, [] => false
  | a :: as, b :: bs => if a < b then true else if b < a then false else charsLTb as bs

/-- Python string `<=`: not strictly greater, code-point lexicographic. -/
def strLE (a b : String) : Prop := charsLTb b.data a.data = false

instance : DecidableRel strLE := fun a b => by unfold strLE; infer_instance

/-! ### helpers.py : quarterly metrics -/

/-- One row of the unified table as consumed by `calculate_quarterly_metrics`
and `get_sku_metrics`: columns SKU, Month, Year, Revenue, Shipped Quantity.
In the pipeline output SKU is non-null and Month is `dt.month ∈ 1..12`. -/
structure QIn where
  sku : String
  month : Nat
  year : Int
  revenue : ℚ
  qty : ℚ
deriving DecidableEq

/-- `add_quarter`: the label `'Q' + str((Month - 1) // 3 + 1)`.
(For the pipeline's months `1..12` natural subtraction agrees with Python.) -/
def quarterLabel (month : Nat) : String :=
  "Q" ++ toString ((month - 1) / 3 + 1)

/-- Result of a float-valued `pct_change * 100` entry: pandas NaN (absent),
`inf`, `-inf`, or a finite number. -/
inductive Growth where
  | absent
  | posInf
  | negInf
  | val (x : ℚ)
deriving DecidableEq

/-- pandas `Series.pct_change` scaled by 100 on exact numbers:
`cur / prev - 1`, where float semantics give NaN for `0/0` and ±inf for
division of a nonzero value by zero. -/
def pctChange (prev cur : ℚ) : Growth :=
  if prev = 0 then
    if cur = 0 then .absent else if 0 < cur then .posInf else .negInf
  else
    .val ((cur - prev) / prev * 100)

/-- One aggregated quarterly row (after the renames in the source):
optional SKU (present iff `by_sku`), Year, Quarter label, Total Revenue,
Units Sold, and Unique SKUs (present iff not `by_sku`). -/
structure QRow where
  sku : Option String
  year : Int
  quarter : String
  totalRevenue : ℚ
  unitsSold : ℚ
  uniqueSkus : Option Nat
deriving DecidableEq

/-- A quarterly row with the two growth columns appended. -/
structure QRowG extends QRow where
  revenueGrowth : Growth
  unitsGrowth : Growth
deriving DecidableEq

/-- The `groupby` key of `calculate_quarterly_metrics`:
(SKU if `by_sku`, Year, Quarter label). -/
abbrev QKey := Option String × Int × String

/-- Key of one input row. -/
def qKey (by_sku : Bool) (r : QIn) : QKey :=
  (if by_sku then some r.sku else none, r.year, quarterLabel r.month)

/-- Strict order on the optional SKU component of a groupby key. -/
def optStrLTb : Option String → Option String → Bool
  | none, some _ => true
  | some x, some y => charsLTb x.data y.data
  | _, _ => false

/-- pandas `groupby` sorts its keys ascending, lexicographically on the
grouping columns (Quarter compared as its string label). -/
def keyLE (a b : QKey) : Prop :=
  optStrLTb a.1 b.1 = true ∨
    (a.1 = b.1 ∧ (a.2.1 < b.2.1 ∨ (a.2.1 = b.2.1 ∧ strLE a.2.2 b.2.2)))

instance : DecidableRel keyLE := fun a b => by unfold keyLE; infer_instance

/-- `nunique` of a column: number of distinct values. -/
def nunique (l : List String) : Nat := l.dedup.length

/-- The aggregated row for one groupby key: sum of Revenue, sum of
Shipped Quantity, and (when not by SKU) the `nunique` count of SKUs. -/
def aggRow (by_sku : Bool) (rows : List QIn) (k : QKey) : QRow :=
  let grp := rows.filter fun r => decide (qKey by_sku r = k)
  { sku := k.1
    year := k.2.1
    quarter := k.2.2
    totalRevenue := (grp.map (·.revenue)).sum
    unitsSold := (grp.map (·.qty)).sum
    uniqueSkus := if by_sku then none else some (nunique (grp.map (·.sku))) }

/-- `filtered_df.groupby(group_cols).agg(aggs).reset_index()` with the
renames applied: one row per distinct key, keys in groupby's sorted order. -/
def groupbyQuarter (by_sku : Bool) (rows : List QIn) : List QRow :=
  (List.insertionSort keyLE ((rows.map (qKey by_sku)).dedup)).map (aggRow by_sku rows)

/-- `sort_values(['Year', 'Quarter'])`: Year, then the Quarter *string*. -/
def yqLE (a b : QRow) : Prop :=
  a.year < b.year ∨ (a.year = b.year ∧ strLE a.quarter b.quarter)

instance : DecidableRel yqLE := fun a b => by unfold yqLE; infer_instance

/-- The partition key of the growth computation: `groupby('SKU')` when
`by_sku`, `groupby('Year')` otherwise. -/
def pkey (by_sku : Bool) (r : QRow) : Option String ⊕ Int :=
  if by_sku then .inl r.sku else .inr r.year

/-- Value of the grouped `pct_change` columns at row `r`, given the rows
`pre` preceding it in frame order: the previous row of the same partition
is the last element of `pre` with the same key. -/
def mkGrowth (key : QRow → Option String ⊕ Int) (pre : List QRow) (r : QRow) :
    Growth × Growth :=
  match (pre.filter fun p => decide (key p = key r)).getLast? with
  | none => (.absent, .absent)
  | some p => (pctChange p.totalRevenue r.totalRevenue,
               pctChange p.unitsSold r.unitsSold)

/-- Grouped `pct_change` down a frame: `acc` accumulates the rows already
passed, in order. -/
def growthCol (key : QRow → Option String ⊕ Int) (acc : List QRow) :
    List QRow → List (Growth × Growth)
  | [] => []
  | r :: rs => mkGrowth key acc r :: growthCol key (acc ++ [r]) rs

/-- The aggregated frame after `sort_values(['Year', 'Quarter'])`. -/
def sortedQuarter (rows : List QIn) (by_sku : Bool) : List QRow :=
  List.insertionSort yqLE (groupbyQuarter by_sku rows)

/-- `calculate_quarterly_metrics(filtered_df, by_sku)`: group by
(SKU?, Year, Quarter), aggregate, sort by `['Year', 'Quarter']`, then append
quarter-over-quarter growth columns computed by `pct_change` within
`groupby('SKU')` (if `by_sku`) or `groupby('Year')` (if not). -/
def calculate_quarterly_metrics (rows : List QIn) (by_sku : Bool) : List QRowG :=
  List.zipWith (fun r g => { toQRow := r, revenueGrowth := g.1, unitsGrowth := g.2 })
    (sortedQuarter rows by_sku)
    (growthCol (pkey by_sku) [] (sortedQuarter rows by_sku))

/-- The ordinal 1–4 denoted by a quarter label (`5` for any other string). -/
def qOrd (s : String) : Nat :=
  if s = "Q1" then 1 else if s = "Q2" then 2 else if s = "Q3" then 3
  else if s = "Q4" then 4 else 5

/-! ### helpers.py : get_sku_metrics -/

/-- One row of the SKU metrics table: SKU, Total Revenue,
Avg Revenue per Order, Units Sold. -/
structure SkuMRow where
  sku : String
  totalRevenue : ℚ
  avgRevenue : ℚ
  unitsSold : ℚ
deriving DecidableEq

/-- `.round(2)` on an exact value: round to two decimals. -/
def round2 (x : ℚ) : ℚ := (round (x * 100) : ℤ) / 100

/-- The aggregated row for one SKU: `Revenue: ['sum', 'mean']`,
`'Shipped Quantity': 'sum'`, all rounded to two decimals. -/
def skuAggRow (rows : List QIn) (s : String) : SkuMRow :=
  let grp := rows.filter fun r => decide (r.sku = s)
  { sku := s
    totalRevenue := round2 ((grp.map (·.revenue)).sum)
    avgRevenue := round2 ((grp.map (·.revenue)).sum / (grp.length : ℚ))
    unitsSold := round2 ((grp.map (·.qty)).sum) }

/-- `sort_values('Total Revenue', ascending=False)`. -/
def revDescLE (a b : SkuMRow) : Prop := b.totalRevenue ≤ a.totalRevenue

instance : DecidableRel revDescLE := fun a b => by unfold revDescLE; infer_instance

/-- `get_sku_metrics(filtered_df)`: group by SKU, aggregate, sort by Total
Revenue descending, then append the synthetic TOTAL row whose revenue and
units are the sums over the per-SKU rows and whose average is
`sum(Total Revenue) / len(filtered_df)` (0 when the input is empty). -/
def get_sku_metrics (rows : List QIn) : List SkuMRow :=
  let sku_metrics :=
    List.insertionSort revDescLE
      ((List.insertionSort strLE ((rows.map (·.sku)).dedup)).map (skuAggRow rows))
  let totals : SkuMRow :=
    { sku := "TOTAL"
      totalRevenue := (sku_metrics.map (·.totalRevenue)).sum
      avgRevenue :=
        if 0 < rows.length then
          (sku_metrics.map (·.totalRevenue)).sum / (rows.length : ℚ)
        else 0
      unitsSold := (sku_metrics.map (·.unitsSold)).sum }
  sku_metrics ++ [totals]

/-! ### sku_manager.py : SKUManager -/

/-- The mapping state of `SKUManager` after `_load_mappings`:
`sku_mapping` (Merchant SKU → SKU), `state_name_to_code` (state name or code
→ code) and `valid_state_codes`, all built from the legend sheets.
Python dicts/sets are modelled as association lists / lists with unique keys
not assumed (lookup takes the first hit, membership is list membership). -/
structure SKUManager where
  sku_mapping : List (String × String)
  state_name_to_code : List (String × String)
  valid_state_codes : List String
deriving DecidableEq

/-- `map_sku`: `self.sku_mapping.get(merchant_sku, merchant_sku)`. -/
def map_sku (m : SKUManager) (merchant_sku : String) : String :=
  (dictGet m.sku_mapping merchant_sku).getD merchant_sku

/-- `map_state`: `None` for NA input; otherwise look `str(state).strip()` up
in `state_name_to_code` and keep the result only if it lies in
`valid_state_codes`. -/
def map_state (m : SKUManager) (state : Cell) : Option String :=
  match state with
  | none => none
  | some s =>
    match dictGet m.state_name_to_code (pyStrip s) with
    | none => none
    | some c => if c ∈ m.valid_state_codes then some c else none

/-- One row of the unified table (the frame `map_skus_in_df` receives):
the Merchant SKU and Shipping State cells, the SKU column cell (the column
the mapper adds), the derived Month/Year/Revenue/Shipped Quantity columns,
and `payload` standing for every remaining column of the row. -/
structure SRow where
  merchantSku : Cell
  shippingState : Cell
  sku : Cell
  month : Nat
  year : Int
  revenue : ℚ
  qty : ℚ
  payload : Nat
deriving DecidableEq

/-- A dataframe for `map_skus_in_df`: column-presence flags for
'Merchant SKU' and 'Shipping State', plus the rows. -/
structure DF where
  hasMerchantSku : Bool
  hasShippingState : Bool
  rows : List SRow
deriving DecidableEq

/-- `df[col].map(self.sku_mapping).fillna(df[col])` on one cell. -/
def mapSkuCell (m : SKUManager) (c : Cell) : Cell :=
  c.map fun raw => (dictGet m.sku_mapping raw).getD raw

/-- `map_skus_in_df(df)`: if the Merchant SKU column is absent the frame is
returned unchanged. Otherwise the SKU column is written; then, only when a
Shipping State column exists and `valid_state_codes` is non-empty, rows whose
`map_state` is NA are dropped and Shipping State is overwritten with the
resolved code. -/
def map_skus_in_df (m : SKUManager) (df : DF) : DF :=
  if df.hasMerchantSku then
    if df.hasShippingState ∧ m.valid_state_codes ≠ [] then
      { hasMerchantSku := df.hasMerchantSku
        hasShippingState := df.hasShippingState
        rows :=
          ((df.rows.map fun r => { r with sku := mapSkuCell m r.merchantSku }).filter
              fun r => (map_state m r.shippingState).isSome).map
            fun r => { r with shippingState := map_state m r.shippingState } }
    else
      { hasMerchantSku := df.hasMerchantSku
        hasShippingState := df.hasShippingState
        rows := df.rows.map fun r => { r with sku := mapSkuCell m r.merchantSku } }
  else df

/-! ### loader.py : load_data -/

/-- The Purchase Date cell of a raw row, as seen by
`pd.to_datetime(..., utc=True)` (default `errors='raise'`):
NA/empty input gives NaT without raising (`missing`), a parseable value
gives an instant (`valid`, carrying the calendar fields the pipeline later
extracts), and a malformed non-empty value raises (`malformed`). -/
inductive TsCell where
  | missing
  | valid (year : Int) (month : Nat) (day : Nat)
  | malformed
deriving DecidableEq

/-- Whether the timestamp parsed to an instant (`notna` after parsing). -/
def TsCell.isValid : TsCell → Bool
  | .valid _ _ _ => true
  | _ => false

/-- One row of a raw CSV, with the columns the loader touches; the numeric
cells are `none` when `pd.to_numeric(..., errors='coerce')` would give NaN. -/
structure RawRow where
  purchaseDate : TsCell
  merchantSku : Cell
  shippingState : Cell
  itemPrice : Option ℚ
  promoDiscount : Option ℚ
  shippedQty : Option ℚ
deriving DecidableEq

/-- One discovered CSV file: `unreadable` if `pd.read_csv` (or a required
column access) raises, otherwise its rows. -/
inductive CsvFile where
  | unreadable
  | table (rows : List RawRow)
deriving DecidableEq

/-- The per-file body of the loader's try block: read, parse Purchase Date
(raising — and so failing the whole file — on any malformed entry), keep
rows whose date is valid, strip the Merchant SKU. `none` means the file
raised and is skipped by the except branch. -/
def parse_file : CsvFile → Option (List RawRow)
  | .unreadable => none
  | .table rows =>
    if rows.any fun r => decide (r.purchaseDate = .malformed) then none
    else
      some ((rows.filter fun r => r.purchaseDate.isValid).map
        fun r => { r with merchantSku := r.merchantSku.map pyStrip })

/-- Derivation of one unified row from a raw row with a valid date:
Month and Year from the instant, numeric coercion with `fillna(0)`, and
`Revenue = Item Price - Item Promo Discount`. Rows without a valid date
never reach this step (they are filtered per file), so they map to `none`. -/
def processRow (r : RawRow) : Option SRow :=
  match r.purchaseDate with
  | .valid y mo _ =>
    some { merchantSku := r.merchantSku
           shippingState := r.shippingState
           sku := none
           month := mo
           year := y
           revenue := (r.itemPrice.getD 0) - (r.promoDiscount.getD 0)
           qty := r.shippedQty.getD 0
           payload := 0 }
  | _ => none

/-- The empty `pd.DataFrame()` the loader returns when nothing loads. -/
def emptyDF : DF := { hasMerchantSku := false, hasShippingState := false, rows := [] }

/-- `load_data`: parse every discovered file independently (a raising file is
skipped), concatenate the survivors, derive the calendar and numeric
columns, drop rows with a null Year or an empty/whitespace Merchant SKU
(Year is never null here since every kept row parsed to an instant), and
apply the SKU manager when one is provided. With no parsed file at all the
result is an empty frame. -/
def load_data (files : List CsvFile) (mgr : Option SKUManager) : DF :=
  let dfs := files.filterMap parse_file
  if dfs.isEmpty then emptyDF
  else
    let kept := (dfs.flatten.filterMap processRow).filter fun r =>
      match r.merchantSku with
      | some s => decide (pyStrip s ≠ "")
      | none => false
    let df : DF := { hasMerchantSku := true, hasShippingState := true, rows := kept }
    match mgr with
    | some m => map_skus_in_df m df
    | none => df

/-! ### legend_loader.py : sheet store -/

/-- A sheet: columns in order, each a name with its cells. -/
abbrev Table := List (String × List Cell)

/-- The legend workbook: the named sheets, plus a flag modelling an I/O or
format failure of the underlying file (any such failure raises inside the
Python functions and is caught). -/
structure Store where
  sheets : List (String × Table)
  ioError : Bool
deriving DecidableEq

/-- `astype(str)` on one cell: pandas renders NaN as the string 'nan'. -/
def cellToStr : Cell → String
  | none => "nan"
  | some s => s

/-- The column-keeping test of `load_sheet_data`:
`df[col].notna().any() and not (df[col].astype(str).str.strip() == '').all()`. -/
def keepCol (cells : List Cell) : Bool :=
  (cells.any fun c => c.isSome) &&
    !(cells.all fun c => decide (pyStrip (cellToStr c) = ""))

/-- Whether row index `i` holds a non-NA value in some column of `t`. -/
def rowHasValue (t : Table) (i : Nat) : Bool :=
  t.any fun col => (col.2.getD i none).isSome

/-- `dropna(how='all')`: drop every row index at which all columns are NA. -/
def dropAllNaRows (t : Table) : Table :=
  t.map fun col => (col.1, (col.2.enum.filter fun p => rowHasValue t p.1).map (·.2))

/-- The cleaning `load_sheet_data` applies to a sheet it has read: keep only
non-empty columns, trim every (string) cell — `astype(str)` first, so NA
cells become the string 'nan' — and drop fully-empty rows. All columns are
modelled as object (string) columns, which is what the legend sheets hold. -/
def cleanTable (t : Table) : Table :=
  dropAllNaRows
    ((t.filter fun col => keepCol col.2).map
      fun col => (col.1, col.2.map fun c => some (pyStrip (cellToStr c))))

/-- The `@st.cache_data` memo sitting on `load_sheet_data`: results keyed by
the sheet name (the function's only argument). A successful save never
invalidates it — the only clear in the program is the manual refresh button —
and `SKUManager._load_mappings` warms it for every sheet at startup. -/
abbrev SheetCache := List (String × Table)

/-- `load_sheet_data(sheet_name)` with its `@st.cache_data` memoization: a
cached name returns the previously computed table regardless of the store's
current contents; on a miss the sheet is read and cleaned — any failure
(store unreadable, sheet absent) yielding an empty frame — and the result
(empty frames included) is cached. Returns the table and the updated memo. -/
def load_sheet_data (st : Store) (cache : SheetCache) (name : String) :
    Table × SheetCache :=
  match dictGet cache name with
  | some t => (t, cache)
  | none =>
    if st.ioError then ([], (name, []) :: cache)
    else
      match dictGet st.sheets name with
      | none => ([], (name, []) :: cache)
      | some raw => (cleanTable raw, (name, cleanTable raw) :: cache)

/-- `save_sheet_data(df, sheet_name)`: read every other sheet, then rewrite
the whole workbook with the updated sheet first followed by the others in
their original order; any failure returns `False` with the store intact. -/
def save_sheet_data (st : Store) (df : Table) (name : String) : Store × Bool :=
  if st.ioError then (st, false)
  else
    ({ sheets := (name, df) :: (st.sheets.filter fun p => decide (p.1 ≠ name))
       ioError := st.ioError }, true)

/-! ### Helper lemmas -/

theorem charsLTb_false_trans :
    ∀ {x y z : List Char}, charsLTb x y = false → charsLTb y z = false →
      charsLTb x z = false := by
  intro x
  induction x with
  | nil =>
    intro y z h1 h2
    cases y with
    | nil => exact h2
    | cons b bs => exact absurd h1 (by simp [charsLTb])
  | cons a as ih =>
    intro y z h1 h2
    cases y with
    | nil =>
      cases z with
      | nil => rfl
      | cons c cs => exact absurd h2 (by simp [charsLTb])
    | cons b bs =>
      cases z with
      | nil => rfl
      | cons c cs =>
        simp only [charsLTb] at h1 h2
        show (if a < c then true else if c < a then false else charsLTb as cs) = false
        by_cases hab : a < b
        · rw [if_pos hab] at h1
          exact absurd h1 (by simp)
        · rw [if_neg hab] at h1
          by_cases hbc : b < c
          · rw [if_pos hbc] at h2
            exact absurd h2 (by simp)
          · rw [if_neg hbc] at h2
            by_cases hba : b < a
            · have hca : c < a := lt_of_le_of_lt (not_lt.mp hbc) hba
              rw [if_neg (asymm hca), if_pos hca]
            · have hab2 : a = b := le_antisymm (not_lt.mp hba) (not_lt.mp hab)
              by_cases hcb : c < b
              · have hca : c < a := hab2 ▸ hcb
                rw [if_neg (asymm hca), if_pos hca]
              · have hbc2 : b = c := le_antisymm (not_lt.mp hcb) (not_lt.mp hbc)
                rw [if_neg hba] at h1
                rw [if_neg hcb] at h2
                have hac : a = c := hab2.trans hbc2
                rw [if_neg (hac ▸ lt_irrefl a), if_neg (hac ▸ lt_irrefl a)]
                exact ih h1 h2

theorem charsLTb_asymm :
    ∀ {x y : List Char}, charsLTb x y = true → charsLTb y x = false := by
  intro x
  induction x with
  | nil =>
    intro y h
    cases y with
    | nil => exact absurd h (by simp [charsLTb])
    | cons b bs => rfl
  | cons a as ih =>
    intro y h
    cases y with
    | nil => exact absurd h (by simp [charsLTb])
    | cons b bs =>
      simp only [charsLTb] at h
      show (if b < a then true else if a < b then false else charsLTb bs as) = false
      by_cases hab : a < b
      · rw [if_neg (asymm hab), if_pos hab]
      · rw [if_neg hab] at h
        by_cases hba : b < a
        · rw [if_pos hba] at h
          exact absurd h (by simp)
        · rw [if_neg hba] at h
          rw [if_neg hba, if_neg hab]
          exact ih h

theorem strLE_total (a b : String) : strLE a b ∨ strLE b a := by
  unfold strLE
  cases h : charsLTb b.data a.data with
  | false => exact Or.inl rfl
  | true => exact Or.inr (charsLTb_asymm h)

theorem strLE_trans {a b c : String} (h1 : strLE a b) (h2 : strLE b c) :
    strLE a c :=
  charsLTb_false_trans h2 h1

theorem yqLE_total (a b : QRow) : yqLE a b ∨ yqLE b a := by
  rcases lt_trichotomy a.year b.year with h | h | h
  · exact Or.inl (Or.inl h)
  · rcases strLE_total a.quarter b.quarter with hq | hq
    · exact Or.inl (Or.inr ⟨h, hq⟩)
    · exact Or.inr (Or.inr ⟨h.symm, hq⟩)
  · exact Or.inr (Or.inl h)

theorem yqLE_trans (a b c : QRow) (hab : yqLE a b) (hbc : yqLE b c) : yqLE a c := by
  rcases hab with h1 | ⟨e1, q1⟩
  · rcases hbc with h2 | ⟨e2, _⟩
    · exact Or.inl (h1.trans h2)
    · exact Or.inl (e2 ▸ h1)
  · rcases hbc with h2 | ⟨e2, q2⟩
    · exact Or.inl (e1 ▸ h2)
    · exact Or.inr ⟨e1.trans e2, strLE_trans q1 q2⟩

theorem dictGet_filter_ne {β : Type} (l : List (String × β)) {n name : String}
    (h : n ≠ name) :
    dictGet (l.filter fun p => decide (p.1 ≠ name)) n = dictGet l n := by
  induction l with
  | nil => rfl
  | cons p l ih =>
    by_cases hp : p.1 = name
    · rw [List.filter_cons, if_neg (by simp [hp]), ih]
      show _ = if p.1 = n then some p.2 else dictGet l n
      rw [if_neg fun e => h (e.symm.trans hp)]
    · rw [List.filter_cons, if_pos (by simpa using hp)]
      show (if p.1 = n then some p.2 else dictGet (l.filter _) n) =
        if p.1 = n then some p.2 else dictGet l n
      by_cases he : p.1 = n
      · rw [if_pos he, if_pos he]
      · rw [if_neg he, if_neg he, ih]

/-- How many rows `map_skus_in_df` keeps: rows are dropped exactly by the
region filter, and only when the Merchant SKU and Shipping State columns are
present and the valid-code set is non-empty. -/
theorem map_skus_in_df_rows_length (m : SKUManager) (df : DF) :
    (map_skus_in_df m df).rows.length =
      if df.hasMerchantSku ∧ df.hasShippingState ∧ m.valid_state_codes ≠ [] then
        (df.rows.filter fun r => (map_state m r.shippingState).isSome).length
      else df.rows.length := by
  unfold map_skus_in_df
  by_cases h1 : df.hasMerchantSku
  · by_cases h2 : df.hasShippingState ∧ m.valid_state_codes ≠ []
    · rw [if_pos h1, if_pos h2, if_pos ⟨h1, h2⟩]
      rw [List.length_map, List.filter_map, List.length_map]
      rfl
    · rw [if_pos h1, if_neg h2, if_neg (fun hc => h2 hc.2)]
      exact List.length_map _ _
  · rw [if_neg h1, if_neg (fun hc => h1 hc.1)]

/-- The surviving rows of `map_skus_in_df`, when all of Merchant SKU column,
Shipping State column and a non-empty valid-code set are present: exactly the
input rows whose region resolves, with the SKU column written and the
Shipping State overwritten by the resolved code. -/
theorem map_skus_in_df_rows_eq (m : SKUManager) (df : DF)
    (h1 : df.hasMerchantSku = true) (h2 : df.hasShippingState = true)
    (h3 : m.valid_state_codes ≠ []) :
    (map_skus_in_df m df).rows =
      (df.rows.filter fun r => (map_state m r.shippingState).isSome).map
        fun r => { r with sku := mapSkuCell m r.merchantSku
                          shippingState := map_state m r.shippingState } := by
  unfold map_skus_in_df
  rw [if_pos (by simp [h1]), if_pos ⟨by simp [h2], h3⟩]
  rw [List.filter_map, List.map_map]
  rfl

/-! ### Claim theorems -/

/-- C9: a raw Merchant SKU absent from the SKU map is returned unchanged by
`map_sku` (identity fallback); and no row is ever dropped on account of its
SKU: the number of rows `map_skus_in_df` keeps is unchanged under any change
of the SKU mapping (only the state data decides drops). -/
theorem C9_unmapped_sku_identity :
    (∀ (m : SKUManager) (raw : String),
        dictGet m.sku_mapping raw = none → map_sku m raw = raw) ∧
    (∀ (m m2 : SKUManager) (df : DF),
        m.state_name_to_code = m2.state_name_to_code →
        m.valid_state_codes = m2.valid_state_codes →
        (map_skus_in_df m df).rows.length = (map_skus_in_df m2 df).rows.length) := by
  constructor
  · intro m raw h
    unfold map_sku
    rw [h]
    rfl
  · intro m m2 df hs hv
    rw [map_skus_in_df_rows_length, map_skus_in_df_rows_length]
    have hms : ∀ c : Cell, map_state m c = map_state m2 c := by
      intro c
      unfold map_state
      cases c with
      | none => rfl
      | some s => rw [hs, hv]
    simp only [hms, hv]

/-- C9 witness: with an empty SKU map, `map_sku` is the identity on a
concrete raw SKU, and swapping the SKU map does not change how many rows a
concrete region filter keeps. -/
theorem C9_unmapped_sku_identity_w :
    map_sku ⟨[], [("CA", "CA")], ["CA"]⟩ "AB-1" = "AB-1" ∧
    (map_skus_in_df ⟨[("AB-1", "W")], [("CA", "CA")], ["CA"]⟩
        ⟨true, true, [⟨some "AB-1", some "ZZ", none, 1, 2023, 8, 1, 0⟩]⟩).rows.length =
      (map_skus_in_df ⟨[], [("CA", "CA")], ["CA"]⟩
        ⟨true, true, [⟨some "AB-1", some "ZZ", none, 1, 2023, 8, 1, 0⟩]⟩).rows.length :=
  ⟨C9_unmapped_sku_identity.1 _ "AB-1" rfl,
   C9_unmapped_sku_identity.2 _ _ _ rfl rfl⟩

/-- C10: when the Merchant SKU column is absent, `map_skus_in_df` returns
the frame completely unchanged — no SKU column, no region resolution, no
dropped rows — even if a non-empty valid region set exists. -/
theorem C10_no_merchant_sku_col_unchanged :
    ∀ (m : SKUManager) (df : DF), df.hasMerchantSku = false →
      map_skus_in_df m df = df := by
  intro m df h
  unfold map_skus_in_df
  rw [if_neg (by simp [h])]

/-- C10 witness: a concrete frame without the Merchant SKU column passes
through a manager with a non-empty valid region set untouched. -/
theorem C10_no_merchant_sku_col_unchanged_w :
    map_skus_in_df ⟨[("AB-1", "W")], [("CA", "CA")], ["CA", "NY"]⟩
        ⟨false, true, [⟨some "AB-1", some "ZZ", none, 1, 2023, 8, 1, 0⟩]⟩ =
      ⟨false, true, [⟨some "AB-1", some "ZZ", none, 1, 2023, 8, 1, 0⟩]⟩ :=
  C10_no_merchant_sku_col_unchanged _ _ rfl

/-- C4: `map_state` is absent on NA input and whenever the lookup result is
not a valid code; with all of Merchant SKU column, Shipping State column and
a non-empty valid set present, `map_skus_in_df` keeps exactly the rows whose
region resolves (every unresolvable row is dropped); and with an empty valid
set no row is dropped at all. -/
theorem C4_region_absent_and_drop :
    (∀ m : SKUManager, map_state m none = none) ∧
    (∀ (m : SKUManager) (s : String),
        (∀ c, dictGet m.state_name_to_code (pyStrip s) = some c →
          c ∉ m.valid_state_codes) →
        map_state m (some s) = none) ∧
    (∀ (m : SKUManager) (df : DF),
        df.hasMerchantSku = true → df.hasShippingState = true →
        m.valid_state_codes ≠ [] →
        (map_skus_in_df m df).rows =
          (df.rows.filter fun r => (map_state m r.shippingState).isSome).map
            fun r => { r with sku := mapSkuCell m r.merchantSku
                              shippingState := map_state m r.shippingState }) ∧
    (∀ (m : SKUManager) (df : DF), m.valid_state_codes = [] →
        (map_skus_in_df m df).rows.length = df.rows.length) := by
  refine ⟨fun m => rfl, ?_, map_skus_in_df_rows_eq, ?_⟩
  · intro m s h
    show (match dictGet m.state_name_to_code (pyStrip s) with
      | none => (none : Option String)
      | some c => if c ∈ m.valid_state_codes then some c else none) = none
    cases hl : dictGet m.state_name_to_code (pyStrip s) with
    | none => rfl
    | some c => exact if_neg (h c hl)
  · intro m df hv
    rw [map_skus_in_df_rows_length, if_neg (fun hc => hc.2.2 hv)]

/-- C4 witness: on a concrete manager, NA and the unknown region "ZZ" map to
absent; a concrete two-row frame keeps exactly its resolvable row; and the
same frame loses no rows under an empty valid set. -/
theorem C4_region_absent_and_drop_w :
    map_state ⟨[("AB-1", "W")], [("California", "CA"), ("CA", "CA")], ["CA", "NY"]⟩ none = none ∧
    map_state ⟨[("AB-1", "W")], [("California", "CA"), ("CA", "CA")], ["CA", "NY"]⟩
      (some "ZZ") = none ∧
    (map_skus_in_df ⟨[("AB-1", "W")], [("California", "CA"), ("CA", "CA")], ["CA", "NY"]⟩
        ⟨true, true, [⟨some "AB-1", some "California", none, 1, 2023, 8, 1, 0⟩,
                      ⟨some "AB-1", some "ZZ", none, 4, 2023, 5, 2, 0⟩]⟩).rows =
      [⟨some "AB-1", some "CA", some "W", 1, 2023, 8, 1, 0⟩] ∧
    (map_skus_in_df ⟨[("AB-1", "W")], [("California", "CA"), ("CA", "CA")], []⟩
        ⟨true, true, [⟨some "AB-1", some "California", none, 1, 2023, 8, 1, 0⟩,
                      ⟨some "AB-1", some "ZZ", none, 4, 2023, 5, 2, 0⟩]⟩).rows.length = 2 := by
  refine ⟨C4_region_absent_and_drop.1 _, C4_region_absent_and_drop.2.1 _ "ZZ" (by decide),
    Eq.trans (C4_region_absent_and_drop.2.2.1 _ _ rfl rfl (by decide)) (by decide),
    Eq.trans (C4_region_absent_and_drop.2.2.2 _ _ rfl) (by decide)⟩

/-- C6: the last row of `get_sku_metrics` is the synthetic TOTAL row: its
revenue is exactly the sum of the revenue of all non-total rows, its units
the sum of their units, and its average is total revenue divided by the
number of input rows (not a mean of per-SKU means), 0 on empty input. -/
theorem C6_sku_metrics_total_row :
    ∀ rows : List QIn,
      (get_sku_metrics rows).getLast? = some
        { sku := "TOTAL"
          totalRevenue := (((get_sku_metrics rows).dropLast).map (·.totalRevenue)).sum
          avgRevenue :=
            if 0 < rows.length then
              (((get_sku_metrics rows).dropLast).map (·.totalRevenue)).sum / (rows.length : ℚ)
            else 0
          unitsSold := (((get_sku_metrics rows).dropLast).map (·.unitsSold)).sum } := by
  intro rows
  show (_ ++ [_]).getLast? = _
  rw [List.getLast?_concat]
  unfold get_sku_metrics
  rw [List.dropLast_concat]

/-- C3: one failing input file is skipped and all remaining files are still
parsed and merged: removing a file on which `parse_file` raises from the
discovery list leaves the loader's result unchanged, whatever surrounds it. -/
theorem C3_file_parse_isolation :
    ∀ (pre post : List CsvFile) (bad : CsvFile) (mgr : Option SKUManager),
      parse_file bad = none →
      load_data (pre ++ bad :: post) mgr = load_data (pre ++ post) mgr := by
  intro pre post bad mgr h
  unfold load_data
  rw [List.filterMap_append, List.filterMap_append, List.filterMap_cons_none h]

/-- C3 witness: an unreadable file among one good file is dropped without
affecting the rest of the load. -/
theorem C3_file_parse_isolation_w :
    load_data [CsvFile.table [⟨.valid 2023 1 15, some "AB-1", some "CA",
        some 10, some 2, some 1⟩], CsvFile.unreadable] none =
      load_data [CsvFile.table [⟨.valid 2023 1 15, some "AB-1", some "CA",
        some 10, some 2, some 1⟩]] none :=
  C3_file_parse_isolation [CsvFile.table [⟨.valid 2023 1 15, some "AB-1", some "CA",
    some 10, some 2, some 1⟩]] [] CsvFile.unreadable none rfl

/-- C2 counterexample: the claim says a row whose timestamp fails to parse is
dropped individually while the other rows of the same file are kept. In the
code `pd.to_datetime` is called with its default `errors='raise'`, so one
malformed timestamp aborts the whole file: here the first row has a valid
timestamp, a positive price and a non-blank SKU, yet the merged result is
empty because the second row's timestamp is malformed. -/
theorem C2_cex_malformed_ts_skips_file :
    load_data [CsvFile.table [⟨.valid 2023 1 15, some "AB-1", some "CA",
        some 10, some 2, some 1⟩,
      ⟨.malformed, some "AB-1", some "CA", some 5, some 0, some 2⟩]] none = emptyDF := by
  rfl

/-- C2 (amended): within a file none of whose timestamps raises, rows whose
timestamp is missing (NaT) are dropped individually and the remaining rows
are kept and merged: deleting the non-parsing rows of such a file up front
leaves the loader's result unchanged. (A malformed timestamp instead fails
the whole file, per the counterexample.) -/
theorem C2_missing_ts_rows_dropped :
    ∀ (pre post : List CsvFile) (rows : List RawRow) (mgr : Option SKUManager),
      (∀ r ∈ rows, r.purchaseDate ≠ TsCell.malformed) →
      load_data (pre ++ CsvFile.table rows :: post) mgr =
        load_data (pre ++ CsvFile.table
          (rows.filter fun r => r.purchaseDate.isValid) :: post) mgr := by
  intro pre post rows mgr h
  have h1 : (rows.any fun r => decide (r.purchaseDate = TsCell.malformed)) = false := by
    rw [List.any_eq_false]
    intro r hr
    simpa using h r hr
  have h2 : ((rows.filter fun r => r.purchaseDate.isValid).any
      fun r => decide (r.purchaseDate = TsCell.malformed)) = false := by
    rw [List.any_eq_false]
    intro r hr
    simpa using h r (List.mem_of_mem_filter hr)
  have hp : parse_file (CsvFile.table rows) =
      parse_file (CsvFile.table (rows.filter fun r => r.purchaseDate.isValid)) := by
    simp only [parse_file]
    rw [if_neg (by rw [h1]; exact Bool.false_ne_true),
      if_neg (by rw [h2]; exact Bool.false_ne_true)]
    rw [List.filter_filter]
    rw [List.filter_congr fun (a : RawRow) _ =>
      (Bool.and_self a.purchaseDate.isValid :
        (a.purchaseDate.isValid && a.purchaseDate.isValid) = a.purchaseDate.isValid)]
  have hfm : (pre ++ CsvFile.table rows :: post).filterMap parse_file =
      (pre ++ CsvFile.table
        (rows.filter fun r => r.purchaseDate.isValid) :: post).filterMap parse_file := by
    rw [List.filterMap_append, List.filterMap_append]
    congr 1
    rw [List.filterMap_cons, List.filterMap_cons, hp]
  unfold load_data
  rw [hfm]

/-- C2 witness: a file holding one valid-timestamp row and one
missing-timestamp row loads identically to the file holding only the valid
row: the NaT row is dropped individually, the other row is kept. -/
theorem C2_missing_ts_rows_dropped_w :
    load_data [CsvFile.table [⟨.valid 2023 1 15, some "AB-1", some "CA",
        some 10, some 2, some 1⟩,
      ⟨.missing, some "AB-1", some "CA", some 5, some 0, some 2⟩]] none =
      load_data [CsvFile.table [⟨.valid 2023 1 15, some "AB-1", some "CA",
        some 10, some 2, some 1⟩]] none :=
  (C2_missing_ts_rows_dropped [] []
    [⟨.valid 2023 1 15, some "AB-1", some "CA", some 10, some 2, some 1⟩,
     ⟨.missing, some "AB-1", some "CA", some 5, some 0, some 2⟩] none
    (by decide)).trans (by rfl)

/-- A table all of whose cells are non-NA loses no rows to
`dropna(how='all')`. -/
theorem dropAllNaRows_all_some (t : Table)
    (h : ∀ p ∈ t, ∀ c ∈ p.2, c.isSome = true) :
    dropAllNaRows t = t := by
  unfold dropAllNaRows
  have hcol : ∀ col ∈ t,
      (col.1, ((col.2.enum.filter fun p => rowHasValue t p.1).map (·.2))) = col := by
    intro col hc
    have hf : (col.2.enum.filter fun p => rowHasValue t p.1) = col.2.enum := by
      rw [List.filter_eq_self]
      intro q hq
      have hg : col.2[q.1]? = some q.2 := List.mem_enum_iff_getElem?.mp hq
      have hv : q.2.isSome = true := by
        rcases List.getElem?_eq_some_iff.mp hg with ⟨hlt, hget⟩
        exact h col hc q.2 (hget ▸ List.getElem_mem hlt)
      show rowHasValue t q.1 = true
      unfold rowHasValue
      rw [List.any_eq_true]
      refine ⟨col, hc, ?_⟩
      have : col.2.getD q.1 none = q.2 := by
        rw [List.getD_eq_getElem?_getD, hg]
        rfl
      rw [this, hv]
    rw [hf]
    have : (col.2.enum.map fun p => p.2) = col.2 := List.enum_map_snd col.2
    rw [this]
  exact (List.map_congr_left hcol).trans (List.map_id t)

/-- A cache hit on `load_sheet_data` returns the memoized table, whatever
the store currently holds. -/
theorem load_sheet_data_cached (st : Store) (cache : SheetCache) (name : String)
    (t : Table) (hc : dictGet cache name = some t) :
    (load_sheet_data st cache name).1 = t := by
  unfold load_sheet_data
  rw [hc]

/-- A cache miss on a healthy store reads and cleans the sheet (empty when
the name is absent). -/
theorem load_sheet_data_cold (st : Store) (cache : SheetCache) (name : String)
    (hc : dictGet cache name = none) (he : st.ioError = false) :
    (load_sheet_data st cache name).1 =
      match dictGet st.sheets name with
      | none => []
      | some raw => cleanTable raw := by
  unfold load_sheet_data
  rw [hc, if_neg (by rw [he]; exact Bool.false_ne_true)]
  cases dictGet st.sheets name <;> rfl

/-- C7 counterexample: the claim says writing a sheet and re-reading it
yields the written cells. But `load_sheet_data` is `@st.cache_data`-memoized
on the sheet name, `SKUManager` reads (and so caches) every sheet at
startup, and a save invalidates nothing. Here sheet "S" holds "old" and is
read once (warming the memo), then "new" is written to "S": the re-read
returns the stale "old" table, not the cleaned written table. -/
theorem C7_cex_stale_read_after_save :
    (load_sheet_data
        (save_sheet_data ⟨[("S", [("A", [some "old"])])], false⟩
          [("A", [some "new"])] "S").1
        (load_sheet_data ⟨[("S", [("A", [some "old"])])], false⟩ [] "S").2
        "S").1 = [("A", [some "old"])] ∧
      cleanTable [("A", [some "new"])] = [("A", [some "new"])] ∧
      ([("A", [some "old"])] : Table) ≠ [("A", [some "new"])] := by
  refine ⟨by decide, by decide, by decide⟩

/-- C7 (amended): a write on a healthy store reports success and leaves
every other sheet of the store unchanged, and a write hitting an I/O or
format error returns `false` without raising, the store untouched; but
re-reading the written sheet returns its new non-empty cells (trimmed, via
the standard read cleaning) only when that sheet is not in the read memo —
`load_sheet_data` is cached by sheet name and a save clears nothing — while
a memoized sheet re-reads as the stale cached table. -/
theorem C7_write_roundtrip_cold_cache :
    ∀ (st : Store) (df : Table) (name : String) (cache : SheetCache),
      (st.ioError = false →
        (save_sheet_data st df name).2 = true ∧
        (dictGet cache name = none →
          (load_sheet_data (save_sheet_data st df name).1 cache name).1 =
            cleanTable df) ∧
        (∀ cname cells, (cname, cells) ∈ df → keepCol cells = true →
          dictGet cache name = none →
          (cname, cells.map fun c => some (pyStrip (cellToStr c))) ∈
            (load_sheet_data (save_sheet_data st df name).1 cache name).1) ∧
        (∀ n, n ≠ name →
          dictGet (save_sheet_data st df name).1.sheets n = dictGet st.sheets n)) ∧
      (∀ t, dictGet cache name = some t →
        (load_sheet_data (save_sheet_data st df name).1 cache name).1 = t) ∧
      (st.ioError = true → save_sheet_data st df name = (st, false)) := by
  intro st df name cache
  refine ⟨?_, fun t ht => load_sheet_data_cached _ cache name t ht, ?_⟩
  · intro he
    have hsave : save_sheet_data st df name =
        ({ sheets := (name, df) :: (st.sheets.filter fun p => decide (p.1 ≠ name))
           ioError := st.ioError }, true) := by
      unfold save_sheet_data
      rw [if_neg (by rw [he]; exact Bool.false_ne_true)]
    have hdg : dictGet ((name, df) :: (st.sheets.filter fun p => decide (p.1 ≠ name)))
        name = some df := by
      show (if name = name then some df else _) = some df
      rw [if_pos rfl]
    have hload : dictGet cache name = none →
        (load_sheet_data (save_sheet_data st df name).1 cache name).1 =
          cleanTable df := by
      intro hc
      rw [hsave]
      rw [load_sheet_data_cold
        { sheets := (name, df) :: (st.sheets.filter fun p => decide (p.1 ≠ name))
          ioError := st.ioError } cache name hc he]
      show (match dictGet ((name, df) ::
          (st.sheets.filter fun p => decide (p.1 ≠ name))) name with
        | none => ([] : Table)
        | some raw => cleanTable raw) = cleanTable df
      rw [hdg]
    refine ⟨by rw [hsave], hload, ?_, ?_⟩
    · intro cname cells hmem hkeep hc
      rw [hload hc]
      have hclean : cleanTable df =
          (df.filter fun col => keepCol col.2).map
            fun col => (col.1, col.2.map fun c => some (pyStrip (cellToStr c))) := by
        unfold cleanTable
        apply dropAllNaRows_all_some
        intro p hp c hc2
        rcases List.mem_map.mp hp with ⟨col, _, rfl⟩
        rcases List.mem_map.mp hc2 with ⟨c0, _, rfl⟩
        rfl
      rw [hclean]
      exact List.mem_map.mpr ⟨(cname, cells),
        List.mem_filter.mpr ⟨hmem, hkeep⟩, rfl⟩
    · intro n hn
      rw [hsave]
      show (if name = n then some df else dictGet (st.sheets.filter _) n) = _
      rw [if_neg fun e => hn e.symm, dictGet_filter_ne _ hn]
  · intro he
    unfold save_sheet_data
    rw [if_pos he]

/-- C7 witness: on a concrete two-sheet store, writing sheet "S" succeeds;
with a cold memo the re-read returns the cleaned written table (its trimmed
cells present); sheet "Other" is untouched in the store; with "S" already
memoized the re-read returns the stale cached table; and the same write on a
failing store returns `false` with the store unchanged. -/
theorem C7_write_roundtrip_cold_cache_w :
    (save_sheet_data ⟨[("Other", [("A", [some "x"])]), ("S", [("B", [some "y"])])], false⟩
      [("State Code", [some " CA ", none])] "S").2 = true ∧
    (load_sheet_data (save_sheet_data
        ⟨[("Other", [("A", [some "x"])]), ("S", [("B", [some "y"])])], false⟩
        [("State Code", [some " CA ", none])] "S").1 [] "S").1 =
      cleanTable [("State Code", [some " CA ", none])] ∧
    ("State Code", [some " CA ", none].map fun c => some (pyStrip (cellToStr c))) ∈
      (load_sheet_data (save_sheet_data
        ⟨[("Other", [("A", [some "x"])]), ("S", [("B", [some "y"])])], false⟩
        [("State Code", [some " CA ", none])] "S").1 [] "S").1 ∧
    dictGet (save_sheet_data
        ⟨[("Other", [("A", [some "x"])]), ("S", [("B", [some "y"])])], false⟩
        [("State Code", [some " CA ", none])] "S").1.sheets "Other" =
      dictGet ([("Other", [("A", [some "x"])]), ("S", [("B", [some "y"])])] :
        List (String × Table)) "Other" ∧
    (load_sheet_data (save_sheet_data
        ⟨[("Other", [("A", [some "x"])]), ("S", [("B", [some "y"])])], false⟩
        [("State Code", [some " CA ", none])] "S").1
      [("S", [("B", [some "y"])])] "S").1 = [("B", [some "y"])] ∧
    save_sheet_data ⟨[("Other", [("A", [some "x"])])], true⟩
        [("State Code", [some " CA ", none])] "S" =
      (⟨[("Other", [("A", [some "x"])])], true⟩, false) := by
  have h := C7_write_roundtrip_cold_cache
    ⟨[("Other", [("A", [some "x"])]), ("S", [("B", [some "y"])])], false⟩
    [("State Code", [some " CA ", none])] "S" []
  have h1 := h.1 rfl
  have h2 := C7_write_roundtrip_cold_cache
    ⟨[("Other", [("A", [some "x"])]), ("S", [("B", [some "y"])])], false⟩
    [("State Code", [some " CA ", none])] "S" [("S", [("B", [some "y"])])]
  exact ⟨h1.1, h1.2.1 rfl,
    h1.2.2.1 "State Code" [some " CA ", none] (by decide) (by decide) rfl,
    h1.2.2.2 "Other" (by decide),
    h2.2.1 [("B", [some "y"])] rfl,
    (C7_write_roundtrip_cold_cache ⟨[("Other", [("A", [some "x"])])], true⟩
      [("State Code", [some " CA ", none])] "S" []).2.2 rfl⟩

/-! ### Lemmas on the quarterly-metrics computation -/

theorem get_zipWith {α β γ : Type} (f : α → β → γ) :
    ∀ (l : List α) (l2 : List β) (i : Nat) (h : i < (List.zipWith f l l2).length)
      (h1 : i < l.length) (h2 : i < l2.length),
      (List.zipWith f l l2).get ⟨i, h⟩ = f (l.get ⟨i, h1⟩) (l2.get ⟨i, h2⟩) := by
  intro l
  induction l with
  | nil => intro l2 i h h1 h2; exact absurd h1 (Nat.not_lt_zero i)
  | cons a as ih =>
    intro l2 i h h1 h2
    cases l2 with
    | nil => exact absurd h2 (Nat.not_lt_zero i)
    | cons b bs =>
      cases i with
      | zero => rfl
      | succ j =>
        exact ih bs j (by simpa [List.zipWith_cons_cons] using h)
          (Nat.lt_of_succ_lt_succ h1) (Nat.lt_of_succ_lt_succ h2)

theorem growthCol_length (key : QRow → Option String ⊕ Int) (acc l : List QRow) :
    (growthCol key acc l).length = l.length := by
  induction l generalizing acc with
  | nil => rfl
  | cons r rs ih => simp [growthCol, ih]

theorem growthCol_get (key : QRow → Option String ⊕ Int) :
    ∀ (l acc : List QRow) (i : Nat) (h1 : i < (growthCol key acc l).length)
      (h2 : i < l.length),
      (growthCol key acc l).get ⟨i, h1⟩ =
        mkGrowth key (acc ++ l.take i) (l.get ⟨i, h2⟩) := by
  intro l
  induction l with
  | nil => intro acc i h1 h2; exact absurd h2 (Nat.not_lt_zero i)
  | cons r rs ih =>
    intro acc i h1 h2
    cases i with
    | zero =>
      show mkGrowth key acc r = mkGrowth key (acc ++ (r :: rs).take 0) ((r :: rs).get ⟨0, h2⟩)
      rw [List.take_zero, List.append_nil]
      rfl
    | succ j =>
      have hj2 : j < rs.length := Nat.lt_of_succ_lt_succ h2
      have hj1 : j < (growthCol key (acc ++ [r]) rs).length := by
        rw [growthCol_length]; exact hj2
      show (growthCol key (acc ++ [r]) rs).get ⟨j, hj1⟩ = _
      rw [ih (acc ++ [r]) j hj1 hj2, List.take_succ_cons, List.append_assoc]
      rfl

theorem cqm_length (rows : List QIn) (b : Bool) :
    (calculate_quarterly_metrics rows b).length = (sortedQuarter rows b).length := by
  unfold calculate_quarterly_metrics
  rw [List.length_zipWith, growthCol_length, Nat.min_self]

theorem cqm_get (rows : List QIn) (b : Bool) (i : Nat)
    (hi : i < (calculate_quarterly_metrics rows b).length)
    (hs : i < (sortedQuarter rows b).length) :
    (calculate_quarterly_metrics rows b).get ⟨i, hi⟩ =
      { toQRow := (sortedQuarter rows b).get ⟨i, hs⟩
        revenueGrowth := (mkGrowth (pkey b) ((sortedQuarter rows b).take i)
          ((sortedQuarter rows b).get ⟨i, hs⟩)).1
        unitsGrowth := (mkGrowth (pkey b) ((sortedQuarter rows b).take i)
          ((sortedQuarter rows b).get ⟨i, hs⟩)).2 } := by
  have hg : i < (growthCol (pkey b) [] (sortedQuarter rows b)).length := by
    rw [growthCol_length]; exact hs
  show (List.zipWith _ (sortedQuarter rows b)
      (growthCol (pkey b) [] (sortedQuarter rows b))).get ⟨i, hi⟩ = _
  rw [get_zipWith _ _ _ i hi hs hg, growthCol_get (pkey b) _ [] i hg hs, List.nil_append]

theorem zipWith_const_left {α β : Type} :
    ∀ (l : List α) (l2 : List β), l2.length = l.length →
      List.zipWith (fun a _ => a) l l2 = l := by
  intro l
  induction l with
  | nil =>
    intro l2 h
    cases l2 with
    | nil => rfl
    | cons b bs => simp at h
  | cons a as ih =>
    intro l2 h
    cases l2 with
    | nil => simp at h
    | cons b bs =>
      rw [List.zipWith_cons_cons, ih bs (by simpa using h)]

theorem cqm_map_toQRow (rows : List QIn) (b : Bool) :
    (calculate_quarterly_metrics rows b).map (fun x => x.toQRow) =
      sortedQuarter rows b := by
  unfold calculate_quarterly_metrics
  rw [List.map_zipWith]
  exact zipWith_const_left _ _ (growthCol_length _ _ _)

theorem chain'_of_mem_imp {α : Type} {R S : α → α → Prop} {P : α → Prop} :
    ∀ l : List α, (∀ x ∈ l, P x) → List.Chain' R l →
      (∀ a b, P a → P b → R a b → S a b) → List.Chain' S l := by
  intro l
  induction l with
  | nil => intro _ _ _; exact List.chain'_nil
  | cons a t ih =>
    intro hP hC himp
    cases t with
    | nil => exact List.chain'_singleton a
    | cons b t2 =>
      rw [List.chain'_cons] at hC ⊢
      exact ⟨himp a b (hP a (by simp)) (hP b (by simp)) hC.1,
        ih (fun x hx => hP x (List.mem_cons_of_mem a hx)) hC.2 himp⟩

theorem quarterLabel_mem {m : Nat} (h1 : 1 ≤ m) (h2 : m ≤ 12) :
    quarterLabel m ∈ (["Q1", "Q2", "Q3", "Q4"] : List String) := by
  interval_cases m <;> decide

theorem strLE_label_mono {s t : String}
    (hs : s ∈ (["Q1", "Q2", "Q3", "Q4"] : List String))
    (ht : t ∈ (["Q1", "Q2", "Q3", "Q4"] : List String))
    (h : strLE s t) : qOrd s ≤ qOrd t := by
  fin_cases hs <;> fin_cases ht <;> revert h <;> decide

theorem sortedQuarter_quarter_mem (rows : List QIn) (b : Bool)
    (hm : ∀ r ∈ rows, 1 ≤ r.month ∧ r.month ≤ 12) :
    ∀ x ∈ sortedQuarter rows b, x.quarter ∈ (["Q1", "Q2", "Q3", "Q4"] : List String) := by
  intro x hx
  have hx2 : x ∈ groupbyQuarter b rows := (List.mem_insertionSort yqLE).mp hx
  rcases List.mem_map.mp hx2 with ⟨k, hk, rfl⟩
  have hk3 : k ∈ rows.map (qKey b) :=
    List.mem_dedup.mp ((List.mem_insertionSort keyLE).mp hk)
  rcases List.mem_map.mp hk3 with ⟨r0, hr0, rfl⟩
  show quarterLabel r0.month ∈ _
  exact quarterLabel_mem (hm r0 hr0).1 (hm r0 hr0).2

/-- C1: quarter-over-quarter growth is computed within the partition keyed by
SKU when `by_sku` and by Year when not (`pkey`), and the first row of every
such partition — any output row no earlier output row shares a partition key
with — carries absent growth in both columns, never zero and never an error.
In particular, when not grouping by SKU, Q1 of a new calendar year has absent
growth even when a Q4 of the prior year exists (see the witness). -/
theorem C1_first_of_partition_absent :
    ∀ (rows : List QIn) (by_sku : Bool) (i : Nat)
      (hi : i < (calculate_quarterly_metrics rows by_sku).length),
      (∀ (j : Nat) (hj : j < i),
        pkey by_sku ((calculate_quarterly_metrics rows by_sku).get
            ⟨j, hj.trans hi⟩).toQRow ≠
          pkey by_sku ((calculate_quarterly_metrics rows by_sku).get ⟨i, hi⟩).toQRow) →
      ((calculate_quarterly_metrics rows by_sku).get ⟨i, hi⟩).revenueGrowth =
          Growth.absent ∧
        ((calculate_quarterly_metrics rows by_sku).get ⟨i, hi⟩).unitsGrowth =
          Growth.absent := by
  intro rows b i hi hne
  have hs : i < (sortedQuarter rows b).length := by
    rw [← cqm_length rows b]; exact hi
  have hfil : (((sortedQuarter rows b).take i).filter
      fun p => decide (pkey b p = pkey b ((sortedQuarter rows b).get ⟨i, hs⟩))) = [] := by
    rw [List.filter_eq_nil_iff]
    intro p hp
    rcases List.mem_take_iff_getElem.mp hp with ⟨j, hjm, hpe⟩
    have hj : j < i := lt_of_lt_of_le hjm (min_le_left _ _)
    have hjs : j < (sortedQuarter rows b).length := lt_of_lt_of_le hjm (min_le_right _ _)
    have hnej := hne j hj
    rw [cqm_get rows b j (hj.trans hi) hjs, cqm_get rows b i hi hs] at hnej
    intro hdec
    apply hnej
    show pkey b ((sortedQuarter rows b).get ⟨j, hjs⟩) =
      pkey b ((sortedQuarter rows b).get ⟨i, hs⟩)
    have hp2 : pkey b p = pkey b ((sortedQuarter rows b).get ⟨i, hs⟩) :=
      of_decide_eq_true hdec
    rw [← hp2, ← hpe]
    rfl
  rw [cqm_get rows b i hi hs]
  constructor
  · show (mkGrowth (pkey b) ((sortedQuarter rows b).take i)
      ((sortedQuarter rows b).get ⟨i, hs⟩)).1 = Growth.absent
    unfold mkGrowth
    rw [hfil]
    rfl
  · show (mkGrowth (pkey b) ((sortedQuarter rows b).take i)
      ((sortedQuarter rows b).get ⟨i, hs⟩)).2 = Growth.absent
    unfold mkGrowth
    rw [hfil]
    rfl

/-- C1 witness: quarters Q1 2023, Q4 2023, Q1 2024 (not grouped by SKU):
row 2 is Q1 2024, the first row of the Year-2024 partition, and its growth is
absent in both columns even though Q4 2023 exists. -/
theorem C1_first_of_partition_absent_w :
    ((calculate_quarterly_metrics
        [⟨"A", 1, 2023, 100, 1⟩, ⟨"A", 10, 2023, 150, 2⟩, ⟨"A", 1, 2024, 80, 1⟩]
        false).get ⟨2, by decide⟩).revenueGrowth = Growth.absent ∧
      ((calculate_quarterly_metrics
        [⟨"A", 1, 2023, 100, 1⟩, ⟨"A", 10, 2023, 150, 2⟩, ⟨"A", 1, 2024, 80, 1⟩]
        false).get ⟨2, by decide⟩).unitsGrowth = Growth.absent :=
  C1_first_of_partition_absent _ false 2 (by decide) (by decide)

/-- C5 counterexample: the claim says the growth value is absent whenever the
previous value in the partition is zero. Here the Year-2023 partition holds
Q1 with total revenue 0 followed by Q2 with total revenue 7: the two rows
share the growth-partition key, the previous value is 0, yet the Q2 revenue
growth is `inf` (pandas `7/0 - 1`), not absent. -/
theorem C5_cex_zero_prev_gives_inf :
    pkey false ((calculate_quarterly_metrics
        [⟨"A", 1, 2023, 0, 5⟩, ⟨"A", 4, 2023, 7, 5⟩] false).get ⟨0, by decide⟩).toQRow =
      pkey false ((calculate_quarterly_metrics
        [⟨"A", 1, 2023, 0, 5⟩, ⟨"A", 4, 2023, 7, 5⟩] false).get ⟨1, by decide⟩).toQRow ∧
    ((calculate_quarterly_metrics
        [⟨"A", 1, 2023, 0, 5⟩, ⟨"A", 4, 2023, 7, 5⟩] false).get
      ⟨0, by decide⟩).totalRevenue = 0 ∧
    ((calculate_quarterly_metrics
        [⟨"A", 1, 2023, 0, 5⟩, ⟨"A", 4, 2023, 7, 5⟩] false).get
      ⟨1, by decide⟩).revenueGrowth = Growth.posInf ∧
    ((calculate_quarterly_metrics
        [⟨"A", 1, 2023, 0, 5⟩, ⟨"A", 4, 2023, 7, 5⟩] false).get
      ⟨1, by decide⟩).revenueGrowth ≠ Growth.absent := by
  refine ⟨by decide, ?_, ?_, ?_⟩
  · show List.sum [(0 : ℚ)] = 0
    simp
  · show pctChange (List.sum [(0 : ℚ)]) (List.sum [(7 : ℚ)]) = Growth.posInf
    simp [pctChange]
  · show pctChange (List.sum [(0 : ℚ)]) (List.sum [(7 : ℚ)]) ≠ Growth.absent
    simp [pctChange]

/-- C5 (amended): when the previous value of the growth partition is missing
(no earlier row of the partition), both growth columns are absent; when a
previous partition row exists and its value is zero, the growth is absent
only if the current value is also zero, and otherwise it is `inf`/`-inf` —
an infinite float, not absent and not an error. -/
theorem C5_zero_or_missing_prev :
    ∀ (rows : List QIn) (by_sku : Bool) (i : Nat)
      (hi : i < (calculate_quarterly_metrics rows by_sku).length)
      (hs : i < (sortedQuarter rows by_sku).length),
      ((((sortedQuarter rows by_sku).take i).filter fun p =>
          decide (pkey by_sku p =
            pkey by_sku ((sortedQuarter rows by_sku).get ⟨i, hs⟩))).getLast? = none →
        ((calculate_quarterly_metrics rows by_sku).get ⟨i, hi⟩).revenueGrowth =
            Growth.absent ∧
          ((calculate_quarterly_metrics rows by_sku).get ⟨i, hi⟩).unitsGrowth =
            Growth.absent) ∧
      (∀ p, (((sortedQuarter rows by_sku).take i).filter fun q =>
          decide (pkey by_sku q =
            pkey by_sku ((sortedQuarter rows by_sku).get ⟨i, hs⟩))).getLast? = some p →
        (p.totalRevenue = 0 →
          ((calculate_quarterly_metrics rows by_sku).get ⟨i, hi⟩).revenueGrowth =
            if ((calculate_quarterly_metrics rows by_sku).get ⟨i, hi⟩).totalRevenue = 0
            then Growth.absent
            else if 0 < ((calculate_quarterly_metrics rows by_sku).get ⟨i, hi⟩).totalRevenue
            then Growth.posInf else Growth.negInf) ∧
        (p.unitsSold = 0 →
          ((calculate_quarterly_metrics rows by_sku).get ⟨i, hi⟩).unitsGrowth =
            if ((calculate_quarterly_metrics rows by_sku).get ⟨i, hi⟩).unitsSold = 0
            then Growth.absent
            else if 0 < ((calculate_quarterly_metrics rows by_sku).get ⟨i, hi⟩).unitsSold
            then Growth.posInf else Growth.negInf)) := by
  intro rows b i hi hs
  rw [cqm_get rows b i hi hs]
  constructor
  · intro hnone
    constructor
    · show (mkGrowth (pkey b) ((sortedQuarter rows b).take i)
        ((sortedQuarter rows b).get ⟨i, hs⟩)).1 = Growth.absent
      unfold mkGrowth
      rw [hnone]
    · show (mkGrowth (pkey b) ((sortedQuarter rows b).take i)
        ((sortedQuarter rows b).get ⟨i, hs⟩)).2 = Growth.absent
      unfold mkGrowth
      rw [hnone]
  · intro p hsome
    constructor
    · intro hz
      show (mkGrowth (pkey b) ((sortedQuarter rows b).take i)
        ((sortedQuarter rows b).get ⟨i, hs⟩)).1 = _
      unfold mkGrowth
      rw [hsome]
      show pctChange p.totalRevenue
        ((sortedQuarter rows b).get ⟨i, hs⟩).totalRevenue = _
      rw [hz]
      unfold pctChange
      rw [if_pos rfl]
    · intro hz
      show (mkGrowth (pkey b) ((sortedQuarter rows b).take i)
        ((sortedQuarter rows b).get ⟨i, hs⟩)).2 = _
      unfold mkGrowth
      rw [hsome]
      show pctChange p.unitsSold
        ((sortedQuarter rows b).get ⟨i, hs⟩).unitsSold = _
      rw [hz]
      unfold pctChange
      rw [if_pos rfl]

/-- C5 witness: on the quarters Q1 2023 (revenue 0, units 5) and Q2 2023
(revenue 7, units 5), the previous partition row of row 1 is row 0, its
revenue is 0, and the amended theorem pins the Q2 revenue growth to `inf`. -/
theorem C5_zero_or_missing_prev_w :
    ((calculate_quarterly_metrics
        [⟨"A", 1, 2023, 0, 5⟩, ⟨"A", 4, 2023, 7, 5⟩] false).get
      ⟨1, by decide⟩).revenueGrowth = Growth.posInf := by
  have h := ((C5_zero_or_missing_prev
      [⟨"A", 1, 2023, 0, 5⟩, ⟨"A", 4, 2023, 7, 5⟩] false 1 (by decide) (by decide)).2
    ((sortedQuarter [⟨"A", 1, 2023, 0, 5⟩, ⟨"A", 4, 2023, 7, 5⟩] false).get
      ⟨0, by decide⟩) rfl).1
    (by show List.sum [(0 : ℚ)] = 0; simp)
  have h7 : ((calculate_quarterly_metrics
      [⟨"A", 1, 2023, 0, 5⟩, ⟨"A", 4, 2023, 7, 5⟩] false).get
    ⟨1, by decide⟩).totalRevenue = (7 : ℚ) := by
    show List.sum [(7 : ℚ)] = 7
    simp
  rw [h7] at h
  rw [h, if_neg (by norm_num), if_pos (by norm_num)]

/-- C8: the output of `calculate_quarterly_metrics` is sorted ascending by
(Year, Quarter) with the quarter compared as its ordinal 1–4: for any two
consecutive output rows the earlier (year, quarter-ordinal) pair is at most
the later one. The months of the pipeline's unified table lie in 1..12, so
the quarter labels are Q1–Q4, on which the code's string sort coincides with
the ordinal order. -/
theorem C8_sorted_by_year_quarter :
    ∀ (rows : List QIn) (by_sku : Bool),
      (∀ r ∈ rows, 1 ≤ r.month ∧ r.month ≤ 12) →
      List.Chain' (fun a b : QRowG =>
          a.year < b.year ∨ (a.year = b.year ∧ qOrd a.quarter ≤ qOrd b.quarter))
        (calculate_quarterly_metrics rows by_sku) := by
  intro rows b hm
  haveI : IsTotal QRow yqLE := ⟨yqLE_total⟩
  haveI : IsTrans QRow yqLE := ⟨yqLE_trans⟩
  have hsorted : List.Sorted yqLE (sortedQuarter rows b) :=
    List.sorted_insertionSort yqLE _
  have hchain : List.Chain' (fun a b : QRow =>
      a.year < b.year ∨ (a.year = b.year ∧ qOrd a.quarter ≤ qOrd b.quarter))
      (sortedQuarter rows b) := by
    refine chain'_of_mem_imp _ (sortedQuarter_quarter_mem rows b hm)
      (List.Pairwise.chain' hsorted) ?_
    intro x y hx hy hr
    rcases hr with h | ⟨he, hq⟩
    · exact Or.inl h
    · exact Or.inr ⟨he, strLE_label_mono hx hy hq⟩
  have hmap := cqm_map_toQRow rows b
  rw [← hmap, List.chain'_map] at hchain
  exact hchain

/-- C8 witness: quarters Q4 2023 and Q1 2024 come out in ascending
(year, quarter-ordinal) order across the year wrap. -/
theorem C8_sorted_by_year_quarter_w :
    List.Chain' (fun a b : QRowG =>
        a.year < b.year ∨ (a.year = b.year ∧ qOrd a.quarter ≤ qOrd b.quarter))
      (calculate_quarterly_metrics
        [⟨"A", 10, 2023, 100, 1⟩, ⟨"A", 1, 2024, 50, 1⟩] false) :=
  C8_sorted_by_year_quarter _ false (by decide)

end SalesSpec
